import Mathlib

/-!
Verification of the better-elysia declarative routing layer.

The development shallowly embeds the metadata-collection and resolution
pipeline of the repository: route metadata accumulation
(`httpMethodMetadataSetter`), controller initialization (`Controller`,
`initializeController`), parameter extraction (`getParameters`), the
streaming-handler wrapper, the service container (`Service`), the
authentication pre-handler (`onHandleAuthentication`), the exception
hierarchy (`HttpException`), and a small event-loop model of the
deferred-publish protocol built on next-tick scheduling.

Schema objects, documentation fields and the transport itself are opaque
collaborators; they are represented by opaque identifiers (`Nat`) where
the code merely passes them through.
-/

/-- Runtime values flowing through a request: the JS `undefined`, strings,
and opaque object identities. -/
inductive Value where
  | undef : Value
  | str : String → Value
  | obj : Nat → Value
deriving DecidableEq, Repr

/-- Lookup of `c.params?.[slug]`: a missing route parameter reads as
`undefined`. -/
def paramsLookup (ps : List (String × Value)) (slug : String) : Value :=
  match ps.find? (fun p => p.1 == slug) with
  | some p => p.2
  | none => Value.undef

/-- A live request context as seen by `getParameters`: its own identity
(`raw`, the value assigned for a raw-context binding), `c.body`, `c.query`
and the route parameters `c.params`. -/
structure Context where
  raw : Value
  body : Value
  query : Value
  params : List (String × Value)
deriving DecidableEq, Repr

/-- Index-carrying binding record, as stored by the `Body`/`Query`/
`RawContext` decorators (the schema itself is opaque and omitted). -/
structure IndexedSchema where
  index : Nat
deriving DecidableEq, Repr

/-- Binding record stored by the `Param` decorator. -/
structure ParamSlug where
  slug : String
  index : Nat
deriving DecidableEq, Repr

/-- Binding record stored by `createCustomParameterDecorator`: the
extractor function and the parameter index it targets. -/
structure CustomDecorator where
  handler : Context → Value
  index : Nat

/-- Opaque reference to a handler function: its identity and whether it is
a generator function (`constructor.name.includes("GeneratorFunction")`). -/
structure HandlerRef where
  id : Nat
  isGenerator : Bool
deriving DecidableEq, Repr

/-- The reflect-metadata attached to one handler function by the parameter
and `Public` decorators, as read back by `httpMethodMetadataSetter`. -/
structure HandlerMeta where
  body : Option IndexedSchema
  param : Option ParamSlug
  query : Option IndexedSchema
  rawContext : Option IndexedSchema
  customDecorators : List CustomDecorator
  isPublic : Bool

/-- The five HTTP methods accepted by the route decorators. -/
inductive HttpMethods where
  | get | post | put | delete | patch
deriving DecidableEq, Repr

/-- The method string passed to the engine (`"get"`, `"post"`, ...). -/
def HttpMethods.str : HttpMethods → String
  | .get => "get"
  | .post => "post"
  | .put => "put"
  | .delete => "delete"
  | .patch => "patch"

/-- One `Metadata` record of the controller's accumulated route list. -/
structure Metadata where
  path : String
  method : HttpMethods
  handler : HandlerRef
  bodySchema : Option IndexedSchema
  querySchema : Option IndexedSchema
  paramSlug : Option ParamSlug
  rawContext : Option IndexedSchema
  isPublic : Bool
  customDecorators : List CustomDecorator

/-- The `startsWith("/")` test of the source: whether the first character
is a slash (for the one-character pattern the two are the same test). -/
def startsWithSlash (p : String) : Bool :=
  match p.data with
  | [] => false
  | c :: _ => c = '/'

/-- Leading-slash normalization used both for route paths
(`props.path.startsWith("/") ? props.path : "/" + props.path`) and for the
controller's path prefix. -/
def normalizePath (p : String) : String :=
  if startsWithSlash p then p else "/" ++ p

/-- One evaluation of `httpMethodMetadataSetter`: read the handler's
binding metadata, normalize the path, and append one `Metadata` record to
the controller's list. -/
def httpMethodMetadataSetter (metadata : List Metadata) (path : String)
    (method : HttpMethods) (handler : HandlerRef) (hm : HandlerMeta) :
    List Metadata :=
  metadata ++ [{ path := normalizePath path
                 method := method
                 handler := handler
                 bodySchema := hm.body
                 paramSlug := hm.param
                 querySchema := hm.query
                 customDecorators := hm.customDecorators
                 rawContext := hm.rawContext
                 isPublic := hm.isPublic }]

/-- A route declaration as written by the programmer: the decorator's path
and method, the decorated handler and the metadata its parameter
decorators attached. -/
structure RouteDecl where
  path : String
  method : HttpMethods
  handler : HandlerRef
  handlerMeta : HandlerMeta

/-- The controller's route list after the deferred `next-tick` publishes
ran: one `httpMethodMetadataSetter` call per declared route, in
declaration order (next-tick callbacks run first-in first-out). -/
def buildMetadata (decls : List RouteDecl) : List Metadata :=
  decls.foldl
    (fun acc d => httpMethodMetadataSetter acc d.path d.method d.handler d.handlerMeta)
    []

/-- The pre-handler installed on a route: the configured authentication
hook, or the no-op fallback `(c: Context) => {}`. -/
inductive PreHandler where
  | authHook
  | noopHook
deriving DecidableEq, Repr

/-- The post-handler installed on a route: the configured response hook or
the no-op fallback. -/
inductive PostHandler where
  | respHook
  | noopHook
deriving DecidableEq, Repr

/-- One `app.route(method, path, handler, config)` registration received
by the engine (opaque documentation fields omitted). -/
structure Registration where
  method : HttpMethods
  path : String
  handler : HandlerRef
  beforeHandle : Option PreHandler
  afterHandle : Option PostHandler
  bodySchema : Option IndexedSchema
  querySchema : Option IndexedSchema
deriving DecidableEq, Repr

/-- The registration loop of `initializeController`: one engine
registration per `Metadata` record, its path the (already normalized)
controller path prefixed onto the route path, its pre-handler suppressed
for public routes and its post-handler suppressed for generators.
`auth` and `resp` record whether `options.auth` / `options.response` were
supplied. -/
def initializeController (pfx : String) (auth resp : Bool)
    (metadata : List Metadata) : List Registration :=
  metadata.map fun m =>
    { method := m.method
      path := pfx ++ m.path
      handler := m.handler
      beforeHandle :=
        if m.isPublic then none
        else some (if auth then PreHandler.authHook else PreHandler.noopHook)
      afterHandle :=
        if m.handler.isGenerator then none
        else some (if resp then PostHandler.respHook else PostHandler.noopHook)
      bodySchema := m.bodySchema
      querySchema := m.querySchema }

/-- Full pipeline for one controller class: the `Controller` decorator
normalizes the path prefix once, the deferred publishes build the metadata
list, and `initializeController` turns it into engine registrations. -/
def Controller (pfx : String) (auth resp : Bool) (decls : List RouteDecl) :
    List Registration :=
  initializeController (normalizePath pfx) auth resp (buildMetadata decls)

/-- Observable steps of serving one request. -/
inductive ReqEvent where
  | preRun (h : PreHandler)
  | handlerRun (id : Nat)
  | postRun (p : PostHandler)
deriving DecidableEq, Repr

/-- Modelled from the spec: the HTTP engine is an external collaborator;
per the spec it runs a registered pre-handler before the handler body and
the post-handler after it, and runs no pre-handler when none is
installed. -/
def dispatch (r : Registration) : List ReqEvent :=
  (match r.beforeHandle with
    | some h => [ReqEvent.preRun h]
    | none => [])
  ++ [ReqEvent.handlerRun r.handler.id]
  ++ (match r.afterHandle with
    | some p => [ReqEvent.postRun p]
    | none => [])

/-- The lifecycle hooks recorded for one socket class (opaque handler
identities; `body` is the opaque message schema). -/
structure SocketMeta where
  openHook : Option Nat
  closeHook : Option Nat
  messageHook : Option Nat
  body : Option Nat
deriving DecidableEq, Repr

/-- One `app.ws(path, hooks)` registration received by the engine. -/
structure WsRegistration where
  path : String
  beforeHandle : Option PreHandler
  openHook : Option Nat
  closeHook : Option Nat
  messageHook : Option Nat
  body : Option Nat
deriving DecidableEq, Repr

/-- The `Websocket` initializer: registers the endpoint with
`beforeHandle: !isPublic && options?.auth` — no pre-handler when the class
is public or when no authentication hook is configured. -/
def Websocket (path : String) (isPublic auth : Bool) (meta : SocketMeta) :
    WsRegistration :=
  { path := path
    beforeHandle :=
      if isPublic then none
      else if auth then some PreHandler.authHook else none
    openHook := meta.openHook
    closeHook := meta.closeHook
    messageHook := meta.messageHook
    body := meta.body }

/-- Modelled from the spec: on a new socket connection the engine runs the
installed pre-handler, then the open hook. -/
def wsDispatch (r : WsRegistration) : List ReqEvent :=
  (match r.beforeHandle with
    | some h => [ReqEvent.preRun h]
    | none => [])
  ++ (match r.openHook with
    | some o => [ReqEvent.handlerRun o]
    | none => [])

/-- One array write `parameters[i] = v` of `getParameters`. -/
def setParam (p : Nat → Option Value) (i : Nat) (v : Value) :
    Nat → Option Value :=
  fun j => if j = i then some v else p j

/-- The parameter-extraction function built for one route: starting from
an empty argument array, write the raw context, then the body, then the
query, then the path segment, then each custom extractor's (awaited)
result, each at its declared index. Extractors are modelled as pure
functions of the context. -/
def getParameters (m : Metadata) (c : Context) : Nat → Option Value :=
  let p0 : Nat → Option Value := fun _ => none
  let p1 := match m.rawContext with
    | some s => setParam p0 s.index c.raw
    | none => p0
  let p2 := match m.bodySchema with
    | some s => setParam p1 s.index c.body
    | none => p1
  let p3 := match m.querySchema with
    | some s => setParam p2 s.index c.query
    | none => p2
  let p4 := match m.paramSlug with
    | some s => setParam p3 s.index (paramsLookup c.params s.slug)
    | none => p3
  m.customDecorators.foldl (fun p d => setParam p d.index (d.handler c)) p4

/-- The last custom decorator in the list that targets index `i`, i.e. the
one whose write survives. -/
def lastWriteAt (l : List CustomDecorator) (i : Nat) : Option CustomDecorator :=
  match l with
  | [] => none
  | d :: rest =>
    match lastWriteAt rest i with
    | some d' => some d'
    | none => if d.index = i then some d else none

/-- All parameter indices claimed by the bindings of one route, listed in
the order `getParameters` writes them. -/
def bindingIndices (m : Metadata) : List Nat :=
  (m.rawContext.map IndexedSchema.index).toList
  ++ (m.bodySchema.map IndexedSchema.index).toList
  ++ (m.querySchema.map IndexedSchema.index).toList
  ++ (m.paramSlug.map ParamSlug.index).toList
  ++ m.customDecorators.map CustomDecorator.index

/-- Value at index `i` contributed by the raw-context binding alone. -/
def resolveRaw (m : Metadata) (c : Context) (i : Nat) : Option Value :=
  match m.rawContext with
  | some s => if i = s.index then some c.raw else none
  | none => none

/-- Value at index `i` after the body write: a body binding at `i` wins
over a raw-context binding there. -/
def resolveBody (m : Metadata) (c : Context) (i : Nat) : Option Value :=
  match m.bodySchema with
  | some s => if i = s.index then some c.body else resolveRaw m c i
  | none => resolveRaw m c i

/-- Value at index `i` after the query write. -/
def resolveQuery (m : Metadata) (c : Context) (i : Nat) : Option Value :=
  match m.querySchema with
  | some s => if i = s.index then some c.query else resolveBody m c i
  | none => resolveBody m c i

/-- Value at index `i` after the path-segment write. -/
def resolveParam (m : Metadata) (c : Context) (i : Nat) : Option Value :=
  match m.paramSlug with
  | some s =>
    if i = s.index then some (paramsLookup c.params s.slug)
    else resolveQuery m c i
  | none => resolveQuery m c i

/-- The claimed write discipline, stated per index: the last custom
extractor targeting `i` wins; otherwise the path segment, the query, the
body and the raw context are consulted in that (reverse write) order; an
index no binding claims stays unset. -/
def resolveByPriority (m : Metadata) (c : Context) (i : Nat) : Option Value :=
  match lastWriteAt m.customDecorators i with
  | some d => some (d.handler c)
  | none => resolveParam m c i

/-- One unit forwarded to the caller of a wrapped streaming handler. -/
inductive StreamUnit where
  | val (v : Value)
  | err (e : Value)
deriving DecidableEq, Repr

/-- The generator wrapper of `getHandler`: iterate the underlying
generator inside `try`, yielding each produced value; when iteration
raises, the `catch` yields the thrown value and the wrapper ends. A run of
the underlying generator is its produced values followed by an optional
raised value. -/
def wrappedGeneratorRun : List Value → Option Value → List StreamUnit
  | [], none => []
  | [], some e => [StreamUnit.err e]
  | v :: vs, r => StreamUnit.val v :: wrappedGeneratorRun vs r

/-- Whether `ServicesMap` already holds an entry for `name`. -/
def servicesHas (m : List (String × Nat)) (name : String) : Bool :=
  m.any (fun p => p.1 == name)

/-- `ServicesMap.get(name)`. -/
def servicesGet (m : List (String × Nat)) (name : String) : Option Nat :=
  (m.find? (fun p => p.1 == name)).map (fun p => p.2)

/-- The `Service` decorator: registering a class whose name is already in
`ServicesMap` terminates the process with a diagnostic (modelled as
`Except.error`); otherwise one fresh instance is stored. -/
def Service (m : List (String × Nat)) (classname : String) (inst : Nat) :
    Except String (List (String × Nat)) :=
  if servicesHas m classname then
    Except.error ("Service " ++ classname ++ " already exists")
  else
    Except.ok (m ++ [(classname, inst)])

/-- The declaration phase of a boot: every `Service` decorator runs, in
evaluation order, before any controller initializes. -/
def bootPhase (serviceDecls : List (String × Nat)) :
    Except String (List (String × Nat)) :=
  serviceDecls.foldlM (fun m d => Service m d.1 d.2) []

/-- A whole boot: the decorator phase first; only when every service
registered does controller initialization produce engine registrations. -/
def bootApp (serviceDecls : List (String × Nat)) (pfx : String)
    (auth resp : Bool) (decls : List RouteDecl) :
    Except String (List Registration) := do
  let _ ← bootPhase serviceDecls
  pure (Controller pfx auth resp decls)

/-- The decoded JWT payload (`JwtPayload`): optional `id`, `email`,
`role`. -/
structure JwtPayload where
  id : Option String
  email : Option String
  role : Option String
deriving DecidableEq, Repr

/-- The per-request store mutated by the hook (`c.store.user`). -/
structure AuthStore where
  user : Option JwtPayload
deriving DecidableEq, Repr

/-- The slice of the request context read and written by
`onHandleAuthentication`: whether a `jwt` plugin property exists on the
context, its `verify` function (modelled as a pure function of the
optional string it is called with: `token.split("Bearer ")[1]` may be
`undefined`, and a falsy verification result is `none`), the
`Authorization` header (`none` when absent), the store and the response
status. -/
structure AuthContext where
  hasJwt : Bool
  verify : Option String → Option JwtPayload
  authorizationHeader : Option String
  store : AuthStore
  status : Option Nat

/-- The structured `{success, message}` bodies of `CommonResponseSchema`. -/
structure CommonMessage where
  success : Bool
  message : String
deriving DecidableEq, Repr

/-- `UNAUTHORIZED_MESSAGE` of the authentication module. -/
def UNAUTHORIZED_MESSAGE : CommonMessage :=
  { message := "Unauthorized", success := false }

/-- `FORBIDDEN_MESSAGE` of the authentication module. -/
def FORBIDDEN_MESSAGE : CommonMessage :=
  { message := "Forbidden", success := false }

/-- How the hook finishes: by returning (possibly a structured body,
possibly `undefined` so the request proceeds) or by throwing. -/
inductive AuthOutcome where
  | ret (v : Option CommonMessage)
  | thrown (v : CommonMessage)
deriving DecidableEq, Repr

/-- The authentication pre-handler built by `onHandleAuthentication`:
when the context has a `jwt` property it requires a verifiable bearer
token (a missing or empty header, like a failed verification, returns the
unauthorized body with status 401); on success it stores the payload and,
when a role list was supplied, throws the forbidden body with status 403
unless the payload's role matches one of them. Without a `jwt` property it
does nothing. -/
def onHandleAuthentication (roles : Option (List String)) (c : AuthContext) :
    AuthOutcome × AuthContext :=
  if c.hasJwt then
    match c.authorizationHeader with
    | none =>
      (AuthOutcome.ret (some UNAUTHORIZED_MESSAGE), { c with status := some 401 })
    | some token =>
      if token = "" then
        (AuthOutcome.ret (some UNAUTHORIZED_MESSAGE), { c with status := some 401 })
      else
        match c.verify ((token.splitOn "Bearer ").get? 1) with
        | none =>
          (AuthOutcome.ret (some UNAUTHORIZED_MESSAGE), { c with status := some 401 })
        | some payload =>
          let c1 := { c with store := { user := some payload } }
          match roles with
          | some rs =>
            if rs.any (fun role => payload.role == some role) then
              (AuthOutcome.ret none, c1)
            else
              (AuthOutcome.thrown FORBIDDEN_MESSAGE, { c1 with status := some 403 })
          | none => (AuthOutcome.ret none, c1)
  else (AuthOutcome.ret none, c)

namespace HttpStatus

/-- `HttpStatus.INTERNAL_SERVER_ERROR`. -/
def INTERNAL_SERVER_ERROR : Nat := 500

/-- `HttpStatus.FORBIDDEN`. -/
def FORBIDDEN : Nat := 403

/-- `HttpStatus.BAD_REQUEST`. -/
def BAD_REQUEST : Nat := 400

/-- `HttpStatus.UNAUTHORIZED`. -/
def UNAUTHORIZED : Nat := 401

/-- `HttpStatus.NOT_FOUND`. -/
def NOT_FOUND : Nat := 404

/-- `HttpStatus.METHOD_NOT_ALLOWED`. -/
def METHOD_NOT_ALLOWED : Nat := 405

/-- `HttpStatus.FORBIDDEN_MESSAGE`. -/
def FORBIDDEN_MESSAGE : String := "Forbidden"

/-- `HttpStatus.BAD_REQUEST_MESSAGE`. -/
def BAD_REQUEST_MESSAGE : String := "Bad Request"

/-- `HttpStatus.UNAUTHORIZED_MESSAGE`. -/
def UNAUTHORIZED_MESSAGE : String := "Unauthorized"

/-- `HttpStatus.NOT_FOUND_MESSAGE`. -/
def NOT_FOUND_MESSAGE : String := "Not Found"

/-- `HttpStatus.METHOD_NOT_ALLOWED_MESSAGE`. -/
def METHOD_NOT_ALLOWED_MESSAGE : String := "Method Not Allowed"

end HttpStatus

/-- The observable fields of a constructed exception: `this.name`,
`this.message`, `this.status`. -/
structure HttpExceptionData where
  name : String
  message : String
  status : Nat
deriving DecidableEq, Repr

/-- The `HttpException` constructor: `this.status = status ||
HttpStatus.INTERNAL_SERVER_ERROR`, so a missing (`none`) or zero status
falls back to 500. -/
def HttpException (message : String) (status : Option Nat) :
    HttpExceptionData :=
  { name := "HttpException"
    message := message
    status :=
      match status with
      | none => HttpStatus.INTERNAL_SERVER_ERROR
      | some s => if s = 0 then HttpStatus.INTERNAL_SERVER_ERROR else s }

/-- `ForbiddenException`: the optional message defaults to
`HttpStatus.FORBIDDEN_MESSAGE`; the status is fixed at 403. -/
def ForbiddenException (message : Option String) : HttpExceptionData :=
  { HttpException (message.getD HttpStatus.FORBIDDEN_MESSAGE)
      (some HttpStatus.FORBIDDEN) with
    name := "ForbiddenException" }

/-- `BadRequestException`: default message `"Bad Request"`, status 400. -/
def BadRequestException (message : Option String) : HttpExceptionData :=
  { HttpException (message.getD HttpStatus.BAD_REQUEST_MESSAGE)
      (some HttpStatus.BAD_REQUEST) with
    name := "BadRequestException" }

/-- `UnauthorizedException`: default message `"Unauthorized"`, status
401. -/
def UnauthorizedException (message : Option String) : HttpExceptionData :=
  { HttpException (message.getD HttpStatus.UNAUTHORIZED_MESSAGE)
      (some HttpStatus.UNAUTHORIZED) with
    name := "UnauthorizedException" }

/-- `NotFoundException`: default message `"Not Found"`, status 404. -/
def NotFoundException (message : Option String) : HttpExceptionData :=
  { HttpException (message.getD HttpStatus.NOT_FOUND_MESSAGE)
      (some HttpStatus.NOT_FOUND) with
    name := "NotFoundException" }

/-- `MethodNotAllowedException`: default message `"Method Not Allowed"`,
status 405. -/
def MethodNotAllowedException (message : Option String) : HttpExceptionData :=
  { HttpException (message.getD HttpStatus.METHOD_NOT_ALLOWED_MESSAGE)
      (some HttpStatus.METHOD_NOT_ALLOWED) with
    name := "MethodNotAllowedException" }

/-- Observable events of the declaration-and-boot timeline of one
controller class. -/
inductive Ev where
  | paramAnnot (m i : Nat)
  | methodAnnot (m : Nat)
  | classAnnot
  | publish (m : Nat)
  | initRead
deriving DecidableEq, Repr

/-- A callback sitting in the next-tick queue: a deferred
`httpMethodMetadataSetter` publish, or the resumption of the
initializer's `await nextTick()`. -/
inductive Tick where
  | publish (m : Nat)
  | resume
deriving DecidableEq, Repr

/-- A synchronous action of the declaration pass: a parameter decorator, a
route (method) decorator — which calls `process.nextTick` on its publish —
the class decorator, and the start of the initializer, whose
`await nextTick()` enqueues its own resumption. -/
inductive Act where
  | pAnnot (m i : Nat)
  | mAnnot (m : Nat)
  | cAnnot
  | startInit
deriving DecidableEq, Repr

/-- Run the synchronous pass: actions execute in order, each emitting its
event; route decorators and the initializer's await append callbacks to
the next-tick queue instead of running them now. -/
def runSync : List Act → List Tick → List Ev × List Tick
  | [], q => ([], q)
  | Act.pAnnot m i :: as, q =>
    let r := runSync as q
    (Ev.paramAnnot m i :: r.1, r.2)
  | Act.mAnnot m :: as, q =>
    let r := runSync as (q ++ [Tick.publish m])
    (Ev.methodAnnot m :: r.1, r.2)
  | Act.cAnnot :: as, q =>
    let r := runSync as q
    (Ev.classAnnot :: r.1, r.2)
  | Act.startInit :: as, q =>
    let r := runSync as (q ++ [Tick.resume])
    (r.1, r.2)

/-- The event produced when a queued callback finally runs: a publish
writes the route metadata; the resumption is the initializer's read of the
now-complete metadata. -/
def tickEv : Tick → Ev
  | Tick.publish m => Ev.publish m
  | Tick.resume => Ev.initRead

/-- A whole turn of the event loop: the synchronous pass runs to
completion, then the next-tick queue drains first-in first-out. -/
def runProgram (acts : List Act) : List Ev :=
  let r := runSync acts []
  r.1 ++ r.2.map tickEv

/-- The event a synchronous action emits (the initializer emits nothing
before its await). -/
def actEv : Act → Option Ev
  | Act.pAnnot m i => some (Ev.paramAnnot m i)
  | Act.mAnnot m => some (Ev.methodAnnot m)
  | Act.cAnnot => some Ev.classAnnot
  | Act.startInit => none

/-- The callback a synchronous action enqueues, if any. -/
def actTick : Act → Option Tick
  | Act.mAnnot m => some (Tick.publish m)
  | Act.startInit => some Tick.resume
  | _ => none

/-- The declaration pass of one controller class with the host language's
evaluation order: for each method (given as `(method id, parameter
count)`, in declaration order) its parameter decorators run, then its
route decorator; then the class decorator; then (at boot) the initializer
starts and awaits the deferred step. -/
def classProgram (methods : List (Nat × Nat)) : List Act :=
  methods.flatMap
    (fun p => (List.range p.2).map (Act.pAnnot p.1) ++ [Act.mAnnot p.1])
  ++ [Act.cAnnot, Act.startInit]

/-- Parameter- and method-annotation events. -/
def isDeclEv : Ev → Bool
  | Ev.paramAnnot _ _ => true
  | Ev.methodAnnot _ => true
  | _ => false

/-- Metadata-publication events. -/
def isPublishEv : Ev → Bool
  | Ev.publish _ => true
  | _ => false

/-- Every event satisfying `p` occurs strictly before every event
satisfying `q` in the trace. -/
def allBefore (tr : List Ev) (p q : Ev → Bool) : Prop :=
  ∀ (i j : Nat) (hi : i < tr.length) (hj : j < tr.length),
    p (tr.get ⟨i, hi⟩) = true → q (tr.get ⟨j, hj⟩) = true → i < j

/-- The `Metadata` record one route declaration publishes. -/
def metaOfDecl (d : RouteDecl) : Metadata :=
  { path := normalizePath d.path
    method := d.method
    handler := d.handler
    bodySchema := d.handlerMeta.body
    paramSlug := d.handlerMeta.param
    querySchema := d.handlerMeta.query
    customDecorators := d.handlerMeta.customDecorators
    rawContext := d.handlerMeta.rawContext
    isPublic := d.handlerMeta.isPublic }

theorem buildMetadata_go (decls : List RouteDecl) (acc : List Metadata) :
    decls.foldl
      (fun a d => httpMethodMetadataSetter a d.path d.method d.handler d.handlerMeta)
      acc = acc ++ decls.map metaOfDecl := by
  induction decls generalizing acc with
  | nil => simp
  | cons d rest ih =>
    rw [List.foldl_cons, ih]
    simp [httpMethodMetadataSetter, metaOfDecl]

theorem buildMetadata_eq (decls : List RouteDecl) :
    buildMetadata decls = decls.map metaOfDecl := by
  simpa using buildMetadata_go decls []

theorem controller_getElem? (pfx : String) (auth resp : Bool)
    (decls : List RouteDecl) (i : Nat) :
    (Controller pfx auth resp decls)[i]?
      = (decls[i]?).map (fun d =>
          { method := d.method
            path := normalizePath pfx ++ normalizePath d.path
            handler := d.handler
            beforeHandle :=
              if d.handlerMeta.isPublic then none
              else some (if auth then PreHandler.authHook else PreHandler.noopHook)
            afterHandle :=
              if d.handler.isGenerator then none
              else some (if resp then PostHandler.respHook else PostHandler.noopHook)
            bodySchema := d.handlerMeta.body
            querySchema := d.handlerMeta.query }) := by
  cases hd : decls[i]? with
  | none =>
    simp [Controller, initializeController, buildMetadata_eq, List.getElem?_map, hd]
  | some d =>
    simp [Controller, initializeController, buildMetadata_eq, List.getElem?_map,
      hd, metaOfDecl]

/-- C1: a controller with N declared routes produces exactly N engine
registrations, one per metadata entry and in declaration order; the i-th
registration's path is the normalized path prefix concatenated with the
i-th declared route's normalized path (normalization prepends a leading
slash exactly when it is absent), and its method is the i-th declared
method. -/
theorem controller_registers_declared_routes (pfx : String) (auth resp : Bool)
    (decls : List RouteDecl) :
    (Controller pfx auth resp decls).length = decls.length ∧
    (∀ p : String, startsWithSlash p = true → normalizePath p = p) ∧
    (∀ p : String, startsWithSlash p = false → normalizePath p = "/" ++ p) ∧
    ∀ (i : Nat) (d : RouteDecl), decls[i]? = some d →
      ((Controller pfx auth resp decls)[i]?).map Registration.path
          = some (normalizePath pfx ++ normalizePath d.path) ∧
      ((Controller pfx auth resp decls)[i]?).map Registration.method
          = some d.method := by
  refine ⟨?_, ?_, ?_, ?_⟩
  · simp [Controller, initializeController, buildMetadata_eq]
  · intro p hp; simp [normalizePath, hp]
  · intro p hp; simp [normalizePath, hp]
  · intro i d hd
    rw [controller_getElem?, hd]
    simp

/-- A controller with prefix `api` exposing GET `/a` and POST `b` yields
two registrations, with paths `/api/a`, `/api/b` and methods
`get`/`post`, in declaration order. -/
theorem controller_registers_declared_routes_witness :
    (Controller "api" true true
      [⟨"/a", HttpMethods.get, ⟨0, false⟩, ⟨none, none, none, none, [], false⟩⟩,
       ⟨"b", HttpMethods.post, ⟨1, false⟩, ⟨none, none, none, none, [], false⟩⟩]).length = 2 ∧
    ((Controller "api" true true
      [⟨"/a", HttpMethods.get, ⟨0, false⟩, ⟨none, none, none, none, [], false⟩⟩,
       ⟨"b", HttpMethods.post, ⟨1, false⟩, ⟨none, none, none, none, [], false⟩⟩])[0]?).map
        Registration.path = some "/api/a" ∧
    ((Controller "api" true true
      [⟨"/a", HttpMethods.get, ⟨0, false⟩, ⟨none, none, none, none, [], false⟩⟩,
       ⟨"b", HttpMethods.post, ⟨1, false⟩, ⟨none, none, none, none, [], false⟩⟩])[1]?).map
        Registration.path = some "/api/b" ∧
    ((Controller "api" true true
      [⟨"/a", HttpMethods.get, ⟨0, false⟩, ⟨none, none, none, none, [], false⟩⟩,
       ⟨"b", HttpMethods.post, ⟨1, false⟩, ⟨none, none, none, none, [], false⟩⟩])[0]?).map
        Registration.method = some HttpMethods.get ∧
    ((Controller "api" true true
      [⟨"/a", HttpMethods.get, ⟨0, false⟩, ⟨none, none, none, none, [], false⟩⟩,
       ⟨"b", HttpMethods.post, ⟨1, false⟩, ⟨none, none, none, none, [], false⟩⟩])[1]?).map
        Registration.method = some HttpMethods.post := by
  have h := controller_registers_declared_routes "api" true true
    [⟨"/a", HttpMethods.get, ⟨0, false⟩, ⟨none, none, none, none, [], false⟩⟩,
     ⟨"b", HttpMethods.post, ⟨1, false⟩, ⟨none, none, none, none, [], false⟩⟩]
  have h0 := h.2.2.2 0 ⟨"/a", HttpMethods.get, ⟨0, false⟩, ⟨none, none, none, none, [], false⟩⟩ rfl
  have h1 := h.2.2.2 1 ⟨"b", HttpMethods.post, ⟨1, false⟩, ⟨none, none, none, none, [], false⟩⟩ rfl
  refine ⟨by simpa using h.1, ?_, ?_, h0.2, h1.2⟩
  · rw [h0.1]; decide
  · rw [h1.1]; decide

/-- C2: with an authentication hook configured, a route marked public gets
no pre-handler installed and the hook never appears in its request
dispatch; a non-public route gets the hook installed as its pre-handler
and every request runs it strictly before the handler body. The same
holds for a WebSocket endpoint and its open hook. -/
theorem auth_hook_gating (pfx : String) (resp : Bool) (decls : List RouteDecl)
    (i : Nat) (r : Registration) (d : RouteDecl)
    (hr : (Controller pfx true resp decls)[i]? = some r)
    (hd : decls[i]? = some d) :
    (d.handlerMeta.isPublic = true →
      r.beforeHandle = none ∧
      ReqEvent.preRun PreHandler.authHook ∉ dispatch r) ∧
    (d.handlerMeta.isPublic = false →
      r.beforeHandle = some PreHandler.authHook ∧
      (dispatch r)[0]? = some (ReqEvent.preRun PreHandler.authHook) ∧
      (dispatch r)[1]? = some (ReqEvent.handlerRun r.handler.id)) ∧
    (∀ (path : String) (isPub : Bool) (meta : SocketMeta),
      (isPub = true →
        (Websocket path isPub true meta).beforeHandle = none ∧
        ReqEvent.preRun PreHandler.authHook ∉ wsDispatch (Websocket path isPub true meta)) ∧
      (isPub = false →
        (Websocket path isPub true meta).beforeHandle = some PreHandler.authHook ∧
        (wsDispatch (Websocket path isPub true meta))[0]?
            = some (ReqEvent.preRun PreHandler.authHook) ∧
        ∀ o, meta.openHook = some o →
          (wsDispatch (Websocket path isPub true meta))[1]?
              = some (ReqEvent.handlerRun o))) := by
  rw [controller_getElem?, hd] at hr
  have hr2 : some (Registration.mk d.method
      (normalizePath pfx ++ normalizePath d.path) d.handler
      (if d.handlerMeta.isPublic then none
        else some (if true then PreHandler.authHook else PreHandler.noopHook))
      (if d.handler.isGenerator then none
        else some (if resp then PostHandler.respHook else PostHandler.noopHook))
      d.handlerMeta.body d.handlerMeta.query) = some r := hr
  have hr3 := Option.some.inj hr2
  subst hr3
  refine ⟨?_, ?_, ?_⟩
  · intro hp
    refine ⟨by simp [hp], ?_⟩
    simp only [dispatch, hp]
    cases hg : d.handler.isGenerator <;> simp
  · intro hp
    refine ⟨by simp [hp], ?_, ?_⟩ <;> simp [dispatch, hp]
  · intro path isPub meta
    constructor
    · intro hp
      subst hp
      refine ⟨by simp [Websocket], ?_⟩
      simp only [Websocket, wsDispatch]
      cases meta.openHook <;> simp
    · intro hp
      subst hp
      refine ⟨by simp [Websocket], by simp [Websocket, wsDispatch], ?_⟩
      intro o ho
      simp [Websocket, wsDispatch, ho]

/-- The gating at work on one public and one non-public GET route of a
controller, and on a public and a non-public socket endpoint. -/
theorem auth_hook_gating_witness :
    ReqEvent.preRun PreHandler.authHook ∉
      dispatch ⟨HttpMethods.get, "/api/p", ⟨0, false⟩, none,
        some PostHandler.respHook, none, none⟩ ∧
    (dispatch ⟨HttpMethods.get, "/api/s", ⟨1, false⟩, some PreHandler.authHook,
        some PostHandler.respHook, none, none⟩)[0]?
      = some (ReqEvent.preRun PreHandler.authHook) ∧
    (dispatch ⟨HttpMethods.get, "/api/s", ⟨1, false⟩, some PreHandler.authHook,
        some PostHandler.respHook, none, none⟩)[1]?
      = some (ReqEvent.handlerRun 1) ∧
    (Websocket "/ws" true true ⟨some 7, none, none, none⟩).beforeHandle = none ∧
    (Websocket "/ws" false true ⟨some 7, none, none, none⟩).beforeHandle
      = some PreHandler.authHook ∧
    (wsDispatch (Websocket "/ws" false true ⟨some 7, none, none, none⟩))[1]?
      = some (ReqEvent.handlerRun 7) := by
  have h0 := auth_hook_gating "api" true
    [⟨"/p", HttpMethods.get, ⟨0, false⟩, ⟨none, none, none, none, [], true⟩⟩,
     ⟨"/s", HttpMethods.get, ⟨1, false⟩, ⟨none, none, none, none, [], false⟩⟩]
    0 ⟨HttpMethods.get, "/api/p", ⟨0, false⟩, none, some PostHandler.respHook, none, none⟩
    ⟨"/p", HttpMethods.get, ⟨0, false⟩, ⟨none, none, none, none, [], true⟩⟩
    (by rw [controller_getElem?]; rfl) rfl
  have h1 := auth_hook_gating "api" true
    [⟨"/p", HttpMethods.get, ⟨0, false⟩, ⟨none, none, none, none, [], true⟩⟩,
     ⟨"/s", HttpMethods.get, ⟨1, false⟩, ⟨none, none, none, none, [], false⟩⟩]
    1 ⟨HttpMethods.get, "/api/s", ⟨1, false⟩, some PreHandler.authHook, some PostHandler.respHook, none, none⟩
    ⟨"/s", HttpMethods.get, ⟨1, false⟩, ⟨none, none, none, none, [], false⟩⟩
    (by rw [controller_getElem?]; rfl) rfl
  have hws := (h0.2.2 "/ws" true ⟨some 7, none, none, none⟩).1 rfl
  have hws2 := (h1.2.2 "/ws" false ⟨some 7, none, none, none⟩).2 rfl
  exact ⟨(h0.1 rfl).2, (h1.2.1 rfl).2.1, (h1.2.1 rfl).2.2, hws.1, hws2.1,
    hws2.2.2 7 rfl⟩

theorem setParam_self (p : Nat → Option Value) (i : Nat) (v : Value) :
    setParam p i v i = some v := by
  simp [setParam]

theorem setParam_other (p : Nat → Option Value) (i j : Nat) (v : Value)
    (h : j ≠ i) : setParam p i v j = p j := by
  simp [setParam, h]

theorem lastWriteAt_mem (l : List CustomDecorator) (i : Nat)
    (d : CustomDecorator) (h : lastWriteAt l i = some d) :
    d ∈ l ∧ d.index = i := by
  induction l with
  | nil => simp [lastWriteAt] at h
  | cons a rest ih =>
    rw [lastWriteAt] at h
    cases hr : lastWriteAt rest i with
    | some d' =>
      rw [hr] at h
      cases h
      have := ih hr
      exact ⟨List.mem_cons_of_mem a this.1, this.2⟩
    | none =>
      rw [hr] at h
      by_cases ha : a.index = i
      · simp [ha] at h
        subst h
        exact ⟨List.mem_cons_self a rest, ha⟩
      · simp [ha] at h

theorem lastWriteAt_eq_none (l : List CustomDecorator) (i : Nat)
    (h : ∀ d ∈ l, d.index ≠ i) : lastWriteAt l i = none := by
  induction l with
  | nil => rfl
  | cons a rest ih =>
    rw [lastWriteAt, ih (fun d hd => h d (List.mem_cons_of_mem a hd))]
    simp [h a (List.mem_cons_self a rest)]

theorem foldl_setParam_at (l : List CustomDecorator) (c : Context)
    (p : Nat → Option Value) (i : Nat) :
    (l.foldl (fun q d => setParam q d.index (d.handler c)) p) i
      = match lastWriteAt l i with
        | some d => some (d.handler c)
        | none => p i := by
  induction l generalizing p with
  | nil => rfl
  | cons d rest ih =>
    rw [List.foldl_cons, ih, lastWriteAt]
    cases hr : lastWriteAt rest i with
    | some d' => rfl
    | none =>
      by_cases hd : d.index = i
      · simp [hd, setParam]
      · simp [hd, setParam, Ne.symm hd]

theorem getParameters_characterization (m : Metadata) (c : Context) (i : Nat) :
    getParameters m c i = resolveByPriority m c i := by
  simp only [getParameters]
  rw [foldl_setParam_at]
  rw [resolveByPriority]
  cases hl : lastWriteAt m.customDecorators i with
  | some d => rfl
  | none =>
    rw [resolveParam, resolveQuery, resolveBody, resolveRaw]
    cases hp : m.paramSlug <;> cases hq : m.querySchema <;>
      cases hb : m.bodySchema <;> cases hraw : m.rawContext <;>
      simp [setParam] <;> split_ifs <;> simp_all

theorem lastWriteAt_of_nodup (l : List CustomDecorator)
    (hnd : (l.map CustomDecorator.index).Nodup) (d : CustomDecorator)
    (hd : d ∈ l) : lastWriteAt l d.index = some d := by
  induction l with
  | nil => cases hd
  | cons a rest ih =>
    rw [List.map_cons, List.nodup_cons] at hnd
    rw [lastWriteAt]
    rcases List.mem_cons.mp hd with h | h
    · subst h
      rw [lastWriteAt_eq_none]
      · simp
      · intro d' hd' he
        exact hnd.1 (he ▸ List.mem_map_of_mem CustomDecorator.index hd')
    · rw [ih hnd.2 h]

theorem resolveRaw_hit (m : Metadata) (c : Context) (s : IndexedSchema)
    (hs : m.rawContext = some s) : resolveRaw m c s.index = some c.raw := by
  simp [resolveRaw, hs]

theorem resolveRaw_skip (m : Metadata) (c : Context) (i : Nat)
    (h : i ∉ (m.rawContext.map IndexedSchema.index).toList) :
    resolveRaw m c i = none := by
  cases hs : m.rawContext with
  | none => rw [resolveRaw, hs]
  | some s =>
    rw [hs] at h
    simp only [Option.map_some', Option.toList_some, List.mem_singleton] at h
    rw [resolveRaw, hs]
    simp [h]

theorem resolveBody_hit (m : Metadata) (c : Context) (s : IndexedSchema)
    (hs : m.bodySchema = some s) : resolveBody m c s.index = some c.body := by
  simp [resolveBody, hs]

theorem resolveBody_skip (m : Metadata) (c : Context) (i : Nat)
    (h : i ∉ (m.bodySchema.map IndexedSchema.index).toList) :
    resolveBody m c i = resolveRaw m c i := by
  cases hs : m.bodySchema with
  | none => rw [resolveBody, hs]
  | some s =>
    rw [hs] at h
    simp only [Option.map_some', Option.toList_some, List.mem_singleton] at h
    rw [resolveBody, hs]
    simp [h]

theorem resolveQuery_hit (m : Metadata) (c : Context) (s : IndexedSchema)
    (hs : m.querySchema = some s) : resolveQuery m c s.index = some c.query := by
  simp [resolveQuery, hs]

theorem resolveQuery_skip (m : Metadata) (c : Context) (i : Nat)
    (h : i ∉ (m.querySchema.map IndexedSchema.index).toList) :
    resolveQuery m c i = resolveBody m c i := by
  cases hs : m.querySchema with
  | none => rw [resolveQuery, hs]
  | some s =>
    rw [hs] at h
    simp only [Option.map_some', Option.toList_some, List.mem_singleton] at h
    rw [resolveQuery, hs]
    simp [h]

theorem resolveParam_hit (m : Metadata) (c : Context) (s : ParamSlug)
    (hs : m.paramSlug = some s) :
    resolveParam m c s.index = some (paramsLookup c.params s.slug) := by
  simp [resolveParam, hs]

theorem resolveParam_skip (m : Metadata) (c : Context) (i : Nat)
    (h : i ∉ (m.paramSlug.map ParamSlug.index).toList) :
    resolveParam m c i = resolveQuery m c i := by
  cases hs : m.paramSlug with
  | none => rw [resolveParam, hs]
  | some s =>
    rw [hs] at h
    simp only [Option.map_some', Option.toList_some, List.mem_singleton] at h
    rw [resolveParam, hs]
    simp [h]

theorem customs_skip (m : Metadata) (c : Context) (i : Nat)
    (h : i ∉ m.customDecorators.map CustomDecorator.index) :
    resolveByPriority m c i = resolveParam m c i := by
  rw [resolveByPriority, lastWriteAt_eq_none]
  intro d hd he
  exact h (he ▸ List.mem_map_of_mem CustomDecorator.index hd)

/-- C3 (amended): when the declared bindings of a handler occupy pairwise
distinct parameter indices, parameter extraction is index-preserving: the
raw context, body, query, path segment and each custom extractor's result
land exactly at their declared indices, and every unclaimed index stays
unset. (Without the distinctness proviso the later write of the fixed
write order silently overwrites the earlier one at a shared index.) -/
theorem getParameters_index_preserving (m : Metadata) (c : Context)
    (hnd : (bindingIndices m).Nodup) :
    (∀ s, m.rawContext = some s → getParameters m c s.index = some c.raw) ∧
    (∀ s, m.bodySchema = some s → getParameters m c s.index = some c.body) ∧
    (∀ s, m.querySchema = some s → getParameters m c s.index = some c.query) ∧
    (∀ s, m.paramSlug = some s →
      getParameters m c s.index = some (paramsLookup c.params s.slug)) ∧
    (∀ d ∈ m.customDecorators,
      getParameters m c d.index = some (d.handler c)) ∧
    (∀ i, i ∉ bindingIndices m → getParameters m c i = none) := by
  rw [bindingIndices] at hnd
  simp only [List.append_assoc] at hnd
  refine ⟨?_, ?_, ?_, ?_, ?_, ?_⟩
  · intro s hs
    rw [hs] at hnd
    simp only [Option.map_some', Option.toList_some, List.singleton_append] at hnd
    have h1 := (List.nodup_cons.mp hnd).1
    simp only [List.mem_append, not_or] at h1
    rw [getParameters_characterization, customs_skip _ _ _ h1.2.2.2,
      resolveParam_skip _ _ _ h1.2.2.1, resolveQuery_skip _ _ _ h1.2.1,
      resolveBody_skip _ _ _ h1.1, resolveRaw_hit _ _ _ hs]
  · intro s hs
    have hnd2 := hnd.of_append_right
    rw [hs] at hnd2
    simp only [Option.map_some', Option.toList_some, List.singleton_append] at hnd2
    have h1 := (List.nodup_cons.mp hnd2).1
    simp only [List.mem_append, not_or] at h1
    rw [getParameters_characterization, customs_skip _ _ _ h1.2.2,
      resolveParam_skip _ _ _ h1.2.1, resolveQuery_skip _ _ _ h1.1,
      resolveBody_hit _ _ _ hs]
  · intro s hs
    have hnd2 := hnd.of_append_right.of_append_right
    rw [hs] at hnd2
    simp only [Option.map_some', Option.toList_some, List.singleton_append] at hnd2
    have h1 := (List.nodup_cons.mp hnd2).1
    simp only [List.mem_append, not_or] at h1
    rw [getParameters_characterization, customs_skip _ _ _ h1.2,
      resolveParam_skip _ _ _ h1.1, resolveQuery_hit _ _ _ hs]
  · intro s hs
    have hnd2 := hnd.of_append_right.of_append_right.of_append_right
    rw [hs] at hnd2
    simp only [Option.map_some', Option.toList_some, List.singleton_append] at hnd2
    have h1 := (List.nodup_cons.mp hnd2).1
    rw [getParameters_characterization, customs_skip _ _ _ h1,
      resolveParam_hit _ _ _ hs]
  · intro d hd
    have hnd2 :=
      hnd.of_append_right.of_append_right.of_append_right.of_append_right
    rw [getParameters_characterization, resolveByPriority,
      lastWriteAt_of_nodup _ hnd2 d hd]
  · intro i hi
    rw [bindingIndices] at hi
    simp only [List.append_assoc, List.mem_append, not_or] at hi
    rw [getParameters_characterization, customs_skip _ _ _ hi.2.2.2.2,
      resolveParam_skip _ _ _ hi.2.2.2.1, resolveQuery_skip _ _ _ hi.2.2.1,
      resolveBody_skip _ _ _ hi.2.1, resolveRaw_skip _ _ _ hi.1]

/-- The spec's [0,2,3] example: bindings at indices 0 (raw context),
2 (body) and 3 (query) fill exactly those positions and index 1 stays
unset. -/
theorem getParameters_index_preserving_witness :
    getParameters
        ⟨"/", HttpMethods.get, ⟨0, false⟩, some ⟨2⟩, some ⟨3⟩, none, some ⟨0⟩,
          false, []⟩
        ⟨Value.obj 1, Value.str "body", Value.str "query", []⟩ 0
      = some (Value.obj 1) ∧
    getParameters
        ⟨"/", HttpMethods.get, ⟨0, false⟩, some ⟨2⟩, some ⟨3⟩, none, some ⟨0⟩,
          false, []⟩
        ⟨Value.obj 1, Value.str "body", Value.str "query", []⟩ 2
      = some (Value.str "body") ∧
    getParameters
        ⟨"/", HttpMethods.get, ⟨0, false⟩, some ⟨2⟩, some ⟨3⟩, none, some ⟨0⟩,
          false, []⟩
        ⟨Value.obj 1, Value.str "body", Value.str "query", []⟩ 3
      = some (Value.str "query") ∧
    getParameters
        ⟨"/", HttpMethods.get, ⟨0, false⟩, some ⟨2⟩, some ⟨3⟩, none, some ⟨0⟩,
          false, []⟩
        ⟨Value.obj 1, Value.str "body", Value.str "query", []⟩ 1
      = none := by
  have h := getParameters_index_preserving
    ⟨"/", HttpMethods.get, ⟨0, false⟩, some ⟨2⟩, some ⟨3⟩, none, some ⟨0⟩,
      false, []⟩
    ⟨Value.obj 1, Value.str "body", Value.str "query", []⟩
    (by decide)
  exact ⟨h.1 ⟨0⟩ rfl, h.2.1 ⟨2⟩ rfl, h.2.2.1 ⟨3⟩ rfl,
    h.2.2.2.2.2 1 (by decide)⟩

/-- C3 as stated is false: a raw-context binding and a body binding may
both claim index 0, and then the body value — not the raw context —
occupies that index, because the body write happens after the raw-context
write. -/
theorem getParameters_index_preserving_cex :
    ¬ (∀ (m : Metadata) (c : Context),
        (∀ s, m.rawContext = some s → getParameters m c s.index = some c.raw) ∧
        (∀ s, m.bodySchema = some s → getParameters m c s.index = some c.body) ∧
        (∀ s, m.querySchema = some s → getParameters m c s.index = some c.query) ∧
        (∀ s, m.paramSlug = some s →
          getParameters m c s.index = some (paramsLookup c.params s.slug)) ∧
        (∀ d ∈ m.customDecorators,
          getParameters m c d.index = some (d.handler c)) ∧
        (∀ i, i ∉ bindingIndices m → getParameters m c i = none)) := by
  intro h
  have h1 := (h ⟨"/", HttpMethods.get, ⟨0, false⟩, some ⟨0⟩, none, none,
      some ⟨0⟩, false, []⟩
      ⟨Value.obj 1, Value.str "b", Value.undef, []⟩).1 ⟨0⟩ rfl
  have h2 : getParameters
      ⟨"/", HttpMethods.get, ⟨0, false⟩, some ⟨0⟩, none, none, some ⟨0⟩,
        false, []⟩
      ⟨Value.obj 1, Value.str "b", Value.undef, []⟩ 0
      = some (Value.str "b") := rfl
  exact absurd (h2.symm.trans h1) (by decide)

/-- C9: the parameter writes happen in the fixed order raw context, body,
query, path segment, then custom extractors in declaration order, each
later write silently overwriting any earlier one at the same index and no
error ever raised: the extracted value at every index equals the
last-writer resolution `resolveByPriority` (the last custom extractor
targeting the index wins, else the path segment, else the query, else the
body, else the raw context). -/
theorem getParameters_write_order (m : Metadata) (c : Context) (i : Nat) :
    getParameters m c i = resolveByPriority m c i :=
  getParameters_characterization m c i

/-- C5: the wrapped streaming handler forwards every produced value as a
discrete unit in order; when the underlying iteration raises after `k`
values, the thrown value is forwarded as unit `k+1` and nothing follows —
in particular a generator that raises while producing its second value
yields exactly the first value and then the error. -/
theorem streaming_wrapper_forwards (vs : List Value) (r : Option Value) :
    wrappedGeneratorRun vs r
        = vs.map StreamUnit.val ++ (r.toList.map StreamUnit.err) ∧
    (∀ (v e : Value),
      wrappedGeneratorRun [v] (some e) = [StreamUnit.val v, StreamUnit.err e]) := by
  constructor
  · induction vs with
    | nil => cases r <;> rfl
    | cons v rest ih => simpa [wrappedGeneratorRun] using ih
  · intro v e
    rfl

theorem bootPhase_go_nodup (sdecls : List (String × Nat)) :
    ∀ (acc m' : List (String × Nat)),
      sdecls.foldlM (fun m d => Service m d.1 d.2) acc = Except.ok m' →
      (sdecls.map Prod.fst).Nodup ∧
      ∀ d ∈ sdecls, servicesHas acc d.1 = false := by
  induction sdecls with
  | nil => intro acc m' _; simp
  | cons d rest ih =>
    intro acc m' h
    rw [List.foldlM_cons] at h
    cases hS : Service acc d.1 d.2 with
    | error e =>
      rw [hS] at h
      have h2 : (Except.error e : Except String (List (String × Nat)))
          = Except.ok m' := h
      exact Except.noConfusion h2
    | ok acc1 =>
      rw [hS] at h
      have h3 : rest.foldlM (fun m d => Service m d.1 d.2) acc1
          = Except.ok m' := h
      clear h
      rename' h3 => h
      have hfresh : servicesHas acc d.1 = false := by
        by_contra hc
        rw [Service] at hS
        simp only [Bool.not_eq_false] at hc
        rw [if_pos hc] at hS
        cases hS
      have hacc1 : acc1 = acc ++ [(d.1, d.2)] := by
        rw [Service, if_neg (by simp [hfresh])] at hS
        exact (Except.ok.inj hS).symm
      have hrest := ih acc1 m' h
      refine ⟨List.nodup_cons.mpr ⟨?_, hrest.1⟩, ?_⟩
      · intro hmem
        rcases List.mem_map.mp hmem with ⟨d', hd', he⟩
        have := hrest.2 d' hd'
        rw [hacc1] at this
        simp [servicesHas, he] at this
      · intro d' hd'
        rcases List.mem_cons.mp hd' with h1 | h1
        · subst h1; exact hfresh
        · have := hrest.2 d' h1
          rw [hacc1] at this
          simp only [servicesHas, List.any_append, Bool.or_eq_false_iff] at this
          exact this.1

/-- C6: registering a service under an already-present class identity is
fatal with the diagnostic naming the class; a first registration under a
fresh identity succeeds and stores exactly one singleton instance; and a
boot whose service declarations repeat a class name aborts during the
declaration phase, before any engine registration is produced. -/
theorem duplicate_service_fatal :
    (∀ (m : List (String × Nat)) (name : String) (inst : Nat),
      servicesHas m name = true →
      Service m name inst
        = Except.error ("Service " ++ name ++ " already exists")) ∧
    (∀ (m : List (String × Nat)) (name : String) (inst : Nat),
      servicesHas m name = false →
      Service m name inst = Except.ok (m ++ [(name, inst)]) ∧
      servicesGet (m ++ [(name, inst)]) name = some inst ∧
      (m ++ [(name, inst)]).countP (fun p => p.1 == name) = 1) ∧
    (∀ (sdecls : List (String × Nat)) (pfx : String) (auth resp : Bool)
        (decls : List RouteDecl),
      ¬ (sdecls.map Prod.fst).Nodup →
      ∃ e, bootApp sdecls pfx auth resp decls = Except.error e) := by
  refine ⟨?_, ?_, ?_⟩
  · intro m name inst h
    rw [Service, if_pos h]
  · intro m name inst h
    have hall : ∀ p ∈ m, (p.1 == name) = false := by
      intro p hp
      by_contra hc
      simp only [Bool.not_eq_false] at hc
      have : servicesHas m name = true := List.any_eq_true.mpr ⟨p, hp, hc⟩
      rw [this] at h; cases h
    refine ⟨by rw [Service, if_neg (by simp [h])], ?_, ?_⟩
    · rw [servicesGet, List.find?_append]
      have hnone : m.find? (fun p => p.1 == name) = none :=
        List.find?_eq_none.mpr (fun p hp => by simp [hall p hp])
      rw [hnone]
      simp
    · rw [List.countP_append]
      have h0 : m.countP (fun p => p.1 == name) = 0 :=
        List.countP_eq_zero.mpr (fun p hp => by simp [hall p hp])
      rw [h0]
      simp
  · intro sdecls pfx auth resp decls hdup
    cases hb : bootPhase sdecls with
    | ok m' =>
      exact absurd ((bootPhase_go_nodup sdecls [] m' hb).1) hdup
    | error e =>
      refine ⟨e, ?_⟩
      rw [bootApp, hb]
      rfl

/-- Registering `A` twice is fatal with the diagnostic; the first
registration of `A` succeeds and is retrievable; a boot with a duplicated
service declaration aborts with an error. -/
theorem duplicate_service_fatal_witness :
    Service [("A", 0)] "A" 1 = Except.error "Service A already exists" ∧
    Service [] "A" 0 = Except.ok [("A", 0)] ∧
    servicesGet [("A", 0)] "A" = some 0 ∧
    ∃ e, bootApp [("A", 0), ("A", 1)] "api" true true [] = Except.error e := by
  have h := duplicate_service_fatal
  have h2 := h.2.1 [] "A" 0 (by decide)
  exact ⟨h.1 [("A", 0)] "A" 1 (by decide), h2.1,
    by simpa using h2.2.1,
    h.2.2 [("A", 0), ("A", 1)] "api" true true [] (by decide)⟩

/-- C7: with the `jwt` plugin present, a request without an
`Authorization` header, or whose bearer token fails verification, gets the
structured `{success: false, message: "Unauthorized"}` body returned
directly by the pre-handler with status 401; a request whose token
verifies but whose role matches none of the route's required roles has the
forbidden body thrown (routed to the engine's error hook like a domain
error) with status 403. -/
theorem auth_pre_handler_outcomes (roles : List String) (c : AuthContext)
    (hjwt : c.hasJwt = true) :
    (c.authorizationHeader = none →
      onHandleAuthentication (some roles) c
        = (AuthOutcome.ret (some ⟨false, "Unauthorized"⟩),
           { c with status := some 401 })) ∧
    (∀ t, c.authorizationHeader = some t →
      c.verify ((t.splitOn "Bearer ").get? 1) = none →
      onHandleAuthentication (some roles) c
        = (AuthOutcome.ret (some ⟨false, "Unauthorized"⟩),
           { c with status := some 401 })) ∧
    (∀ t payload, c.authorizationHeader = some t → t ≠ "" →
      c.verify ((t.splitOn "Bearer ").get? 1) = some payload →
      roles.any (fun role => payload.role == some role) = false →
      onHandleAuthentication (some roles) c
        = (AuthOutcome.thrown ⟨false, "Forbidden"⟩,
           { c with store := { user := some payload }, status := some 403 })) := by
  refine ⟨?_, ?_, ?_⟩
  · intro hh
    rw [onHandleAuthentication, if_pos (by simp [hjwt]), hh]
    rfl
  · intro t hh hv
    rw [onHandleAuthentication, if_pos (by simp [hjwt]), hh]
    by_cases ht : t = ""
    · simp [ht]
      rfl
    · simp only [if_neg ht]
      rw [hv]
      rfl
  · intro t payload hh ht hv hroles
    rw [onHandleAuthentication, if_pos (by simp [hjwt]), hh]
    simp only [if_neg ht]
    rw [hv]
    simp only [hroles]
    rfl

/-- On a context carrying the `jwt` plugin: a rejecting verifier yields
the unauthorized body with status 401; an accepting verifier whose payload
has role `user` against required roles `[admin]` yields the thrown
forbidden body with status 403. -/
theorem auth_pre_handler_outcomes_witness :
    onHandleAuthentication (some ["admin"])
        ⟨true, fun _ => none, some "Bearer xyz", ⟨none⟩, none⟩
      = (AuthOutcome.ret (some ⟨false, "Unauthorized"⟩),
         ⟨true, fun _ => none, some "Bearer xyz", ⟨none⟩, some 401⟩) ∧
    onHandleAuthentication (some ["admin"])
        ⟨true, fun _ => some ⟨none, none, some "user"⟩, some "Bearer tok",
          ⟨none⟩, none⟩
      = (AuthOutcome.thrown ⟨false, "Forbidden"⟩,
         ⟨true, fun _ => some ⟨none, none, some "user"⟩, some "Bearer tok",
           ⟨some ⟨none, none, some "user"⟩⟩, some 403⟩) := by
  have h1 := (auth_pre_handler_outcomes ["admin"]
    ⟨true, fun _ => none, some "Bearer xyz", ⟨none⟩, none⟩ rfl).2.1
    "Bearer xyz" rfl rfl
  have h2 := (auth_pre_handler_outcomes ["admin"]
    ⟨true, fun _ => some ⟨none, none, some "user"⟩, some "Bearer tok",
      ⟨none⟩, none⟩ rfl).2.2
    "Bearer tok" ⟨none, none, some "user"⟩ rfl (by decide) rfl (by decide)
  exact ⟨h1, h2⟩

/-- C8: when the request context has no `jwt` property the hook checks
nothing, mutates nothing and returns `undefined`, so the request proceeds
to the handler whatever the header or required roles are. -/
theorem auth_hook_without_jwt (roles : Option (List String)) (c : AuthContext)
    (h : c.hasJwt = false) :
    onHandleAuthentication roles c = (AuthOutcome.ret none, c) := by
  rw [onHandleAuthentication, if_neg (by simp [h])]

/-- A jwt-less context with an `Authorization` header and required roles
still passes through unchanged. -/
theorem auth_hook_without_jwt_witness :
    onHandleAuthentication (some ["admin"])
        ⟨false, fun _ => none, some "Bearer xyz", ⟨none⟩, none⟩
      = (AuthOutcome.ret none,
         ⟨false, fun _ => none, some "Bearer xyz", ⟨none⟩, none⟩) :=
  auth_hook_without_jwt (some ["admin"])
    ⟨false, fun _ => none, some "Bearer xyz", ⟨none⟩, none⟩ rfl

/-- C10: constructing an `HttpException` with a falsy status (`0` or an
absent argument) yields status 500; each no-argument subclass constructor
yields its fixed status and default message. -/
theorem http_exception_defaults (msg : String) :
    (HttpException msg (some 0)).status = 500 ∧
    (HttpException msg none).status = 500 ∧
    ForbiddenException none
      = ⟨"ForbiddenException", "Forbidden", 403⟩ ∧
    BadRequestException none
      = ⟨"BadRequestException", "Bad Request", 400⟩ ∧
    UnauthorizedException none
      = ⟨"UnauthorizedException", "Unauthorized", 401⟩ ∧
    NotFoundException none
      = ⟨"NotFoundException", "Not Found", 404⟩ ∧
    MethodNotAllowedException none
      = ⟨"MethodNotAllowedException", "Method Not Allowed", 405⟩ := by
  refine ⟨?_, ?_, ?_, ?_, ?_, ?_, ?_⟩ <;>
    simp [HttpException, HttpStatus.INTERNAL_SERVER_ERROR, ForbiddenException,
      BadRequestException, UnauthorizedException, NotFoundException,
      MethodNotAllowedException, HttpStatus.FORBIDDEN,
      HttpStatus.FORBIDDEN_MESSAGE, HttpStatus.BAD_REQUEST,
      HttpStatus.BAD_REQUEST_MESSAGE, HttpStatus.UNAUTHORIZED,
      HttpStatus.UNAUTHORIZED_MESSAGE, HttpStatus.NOT_FOUND,
      HttpStatus.NOT_FOUND_MESSAGE, HttpStatus.METHOD_NOT_ALLOWED,
      HttpStatus.METHOD_NOT_ALLOWED_MESSAGE]

theorem runSync_eq (as : List Act) (q : List Tick) :
    runSync as q = (as.filterMap actEv, q ++ as.filterMap actTick) := by
  induction as generalizing q with
  | nil => simp [runSync]
  | cons a rest ih =>
    cases a <;> simp [runSync, actEv, actTick, ih]

theorem runProgram_eq (acts : List Act) :
    runProgram acts
      = acts.filterMap actEv ++ (acts.filterMap actTick).map tickEv := by
  simp [runProgram, runSync_eq]

theorem sync_events_shape (acts : List Act) (e : Ev)
    (h : e ∈ acts.filterMap actEv) :
    isPublishEv e = false ∧ e ≠ Ev.initRead := by
  rcases List.mem_filterMap.mp h with ⟨a, _, ha⟩
  cases a <;> simp only [actEv] at ha <;> first
    | (cases ha; exact ⟨rfl, by simp⟩)
    | cases ha

theorem tick_events_shape (acts : List Act) (e : Ev)
    (h : e ∈ (acts.filterMap actTick).map tickEv) :
    isDeclEv e = false ∧ e ≠ Ev.classAnnot := by
  rcases List.mem_map.mp h with ⟨t, _, ht⟩
  cases t <;> cases ht <;> exact ⟨rfl, by simp [tickEv]⟩

theorem allBefore_append (xs ys : List Ev) (p q : Ev → Bool)
    (hp : ∀ e ∈ ys, p e = false) (hq : ∀ e ∈ xs, q e = false) :
    allBefore (xs ++ ys) p q := by
  intro i j hi hj hpi hqj
  have hilt : i < xs.length := by
    by_contra hc
    push_neg at hc
    have h1 : (xs ++ ys).get? i = some ((xs ++ ys).get ⟨i, hi⟩) :=
      List.get?_eq_get hi
    rw [List.get?_append_right hc] at h1
    have h2 := List.get?_mem h1
    rw [hp _ h2] at hpi
    cases hpi
  have hjge : xs.length ≤ j := by
    by_contra hc
    push_neg at hc
    have h1 : (xs ++ ys).get? j = some ((xs ++ ys).get ⟨j, hj⟩) :=
      List.get?_eq_get hj
    rw [List.get?_append hc] at h1
    have h2 := List.get?_mem h1
    rw [hq _ h2] at hqj
    cases hqj
  omega

theorem classProgram_ticks (methods : List (Nat × Nat)) :
    (classProgram methods).filterMap actTick
      = methods.map (fun mp => Tick.publish mp.1) ++ [Tick.resume] := by
  rw [classProgram, List.filterMap_append]
  have hmain : ∀ ms : List (Nat × Nat),
      (ms.flatMap
        (fun mp => (List.range mp.2).map (Act.pAnnot mp.1) ++ [Act.mAnnot mp.1])).filterMap
        actTick = ms.map (fun mp => Tick.publish mp.1) := by
    intro ms
    induction ms with
    | nil => rfl
    | cons a rest ih =>
      rw [List.flatMap_cons, List.filterMap_append, ih,
        List.filterMap_append]
      have hnone : ((List.range a.2).map (Act.pAnnot a.1)).filterMap actTick
          = [] := by
        rw [List.filterMap_map]
        exact List.filterMap_eq_nil.mpr (fun x _ => rfl)
      rw [hnone]
      rfl
  rw [hmain]
  rfl

/-- C4 (amended): in the deferred-publish model every parameter and method
annotation of a class runs before any of the class's route publishes, the
class annotation itself also runs before every publish (not after, as the
claim's clause (b) has it), and every publish completes before the
initializer's deferred read — the only reader — runs. -/
theorem deferred_publish_order (methods : List (Nat × Nat)) :
    allBefore (runProgram (classProgram methods)) isDeclEv isPublishEv ∧
    allBefore (runProgram (classProgram methods))
      (fun e => e == Ev.classAnnot) isPublishEv ∧
    allBefore (runProgram (classProgram methods)) isPublishEv
      (fun e => e == Ev.initRead) := by
  refine ⟨?_, ?_, ?_⟩
  · rw [runProgram_eq]
    exact allBefore_append _ _ _ _
      (fun e he => (tick_events_shape _ e he).1)
      (fun e he => (sync_events_shape _ e he).1)
  · rw [runProgram_eq]
    refine allBefore_append _ _ _ _ ?_
      (fun e he => (sync_events_shape _ e he).1)
    intro e he
    have := (tick_events_shape _ e he).2
    simpa using this
  · rw [runProgram_eq, classProgram_ticks, List.map_append,
      ← List.append_assoc]
    refine allBefore_append _ _ _ _ ?_ ?_
    · intro e he
      simp only [List.map_cons, List.map_nil, List.mem_singleton] at he
      subst he
      rfl
    · intro e he
      rcases List.mem_append.mp he with h1 | h1
      · have := (sync_events_shape _ e h1).2
        simpa using this
      · rcases List.mem_map.mp h1 with ⟨t, ht, hmp⟩
        rcases List.mem_map.mp ht with ⟨q, _, hq⟩
        subst hmp
        subst hq
        rfl

/-- The ordering at work for one class with one one-parameter route: the
parameter annotation (index 0) precedes the publish (index 3), the class
annotation (index 2) precedes the publish, and the publish precedes the
initializer's read (index 4). -/
theorem deferred_publish_order_witness :
    (0 : Nat) < 3 ∧ (2 : Nat) < 3 ∧ (3 : Nat) < 4 :=
  ⟨(deferred_publish_order [(0, 1)]).1 0 3 (by decide) (by decide)
      (by decide) (by decide),
   (deferred_publish_order [(0, 1)]).2.1 2 3 (by decide) (by decide)
      (by decide) (by decide),
   (deferred_publish_order [(0, 1)]).2.2 3 4 (by decide) (by decide)
      (by decide) (by decide)⟩

/-- C4's clause (b) is false as stated: for a controller with one
one-parameter route the trace is `[paramAnnot, methodAnnot, classAnnot,
publish, initRead]` — the class annotation (synchronous, index 2) runs
before the deferred publish (index 3), so publication does not complete
before the class annotation runs. -/
theorem deferred_publish_claim_cex :
    ¬ (∀ methods : List (Nat × Nat),
        allBefore (runProgram (classProgram methods)) isDeclEv isPublishEv ∧
        allBefore (runProgram (classProgram methods)) isPublishEv
          (fun e => e == Ev.classAnnot || e == Ev.initRead)) := by
  intro h
  have h2 := (h [(0, 1)]).2 3 2 (by decide) (by decide) (by decide) (by decide)
  exact absurd h2 (by decide)
